import Mathlib

/-!
# Verification of the messaging backend (roastme-back)

Shallow embedding of the FastAPI/SQLAlchemy messaging backend:
the relational state is a record of row lists, each route handler or
service function is a Lean function from the state (plus request data)
to `Except Err` of the new state and response payload.

Embedded sources:
* `app/api/routes/chats.py`    — chat creation, detail, update, add/remove users
* `app/api/routes/messages.py` — message creation, update, delete, mark-read
* `app/api/routes/users.py`    — allow-list add/remove endpoints
* `app/services/user_service.py`    — `register_authorized_ip`, `deactivate_authorized_ip`
* `app/services/message_service.py` — `get_unread_message_count`
* `app/main.py`                — the `validate_ip` request middleware

The `User` model file itself is not part of the embedded sources; per the
data model only a user's identity (unique integer id) is relevant to the
operations below, so the users table is carried as a list of ids.
-/

namespace Roastme

/-- An HTTP error response: status code plus detail string
(mirrors `HTTPException(status_code=..., detail=...)`). -/
structure Err where
  status : Nat
  detail : String
deriving DecidableEq, Repr

deriving instance DecidableEq for Except

/-- Result of a handler: error response or a value. -/
abbrev Res (α : Type) := Except Err α

/-- Row of the `chats` table (`app/models/chat.py`, class `Chat`).
Timestamp columns are not consulted by any embedded operation and are omitted. -/
structure ChatRow where
  id : Nat
  name : Option String
  is_group : Bool
deriving DecidableEq, Repr

/-- Row of the `users_chats` join table (`app/models/chat.py`, class `UserChat`). -/
structure UserChatRow where
  user_id : Nat
  chat_id : Nat
  is_admin : Bool
deriving DecidableEq, Repr

/-- Row of the `messages` table (`app/models/message.py`).
`created_at` is the server-assigned creation instant, modelled as the
database's logical clock value at insertion time. -/
structure MessageRow where
  id : Nat
  content : String
  sender_id : Nat
  chat_id : Nat
  is_read : Bool
  created_at : Nat
deriving DecidableEq, Repr

/-- Row of the `authorized_ips` table (`app/models/authorized_ip.py`).
The surrogate `id` and timestamp columns are not consulted by the embedded
operations; `last_used_at` is kept since `check_ip_authorization` writes it. -/
structure AuthorizedIPRow where
  user_id : Nat
  ip_address : String
  description : Option String
  is_active : Bool
  last_used_at : Option Nat
deriving DecidableEq, Repr

/-- The relational store. `users` lists the existing user ids
(uniqueness of ids is the table's primary-key invariant and is assumed
as a hypothesis where a proof needs it). `nextChatId` / `nextMessageId`
model the autoincrement primary-key counters, `clock` the logical time
used for server-assigned `created_at` values. -/
structure DB where
  users : List Nat
  chats : List ChatRow
  userChats : List UserChatRow
  messages : List MessageRow
  authorizedIPs : List AuthorizedIPRow
  nextChatId : Nat
  nextMessageId : Nat
  clock : Nat
deriving DecidableEq, Repr

/-- Replace the first element satisfying `p` by its image under `f`
(models an in-place mutation of the row returned by `.first()`). -/
def updateFirstP {α : Type} : List α → (α → Bool) → (α → α) → List α
  | [], _, _ => []
  | x :: xs, p, f => if p x then f x :: xs else x :: updateFirstP xs p f

/-- `db.query(UserChat).filter(user_id == uid, chat_id == cid).first()`. -/
def findMembership (db : DB) (cid uid : Nat) : Option UserChatRow :=
  db.userChats.find? (fun uc => uc.user_id == uid && uc.chat_id == cid)

/-- Membership test used by the handlers (truthiness of the row above). -/
def isMember (db : DB) (cid uid : Nat) : Bool :=
  (findMembership db cid uid).isSome

/-- `db.query(UserChat).filter(user_id == uid, chat_id == cid, is_admin == True).first()` truthiness. -/
def isAdmin (db : DB) (cid uid : Nat) : Bool :=
  (db.userChats.find? (fun uc => uc.user_id == uid && uc.chat_id == cid && uc.is_admin)).isSome

/-- `db.query(Chat).filter(Chat.id == cid).first()`. -/
def findChat (db : DB) (cid : Nat) : Option ChatRow :=
  db.chats.find? (fun c => c.id == cid)

/-- Whether a chat row with this id exists. -/
def chatExists (db : DB) (cid : Nat) : Bool :=
  (findChat db cid).isSome

/-- Number of membership rows of a chat
(`db.query(UserChat).filter(UserChat.chat_id == cid).count()`). -/
def memberCount (db : DB) (cid : Nat) : Nat :=
  (db.userChats.filter (fun uc => uc.chat_id == cid)).length

/-- All messages of a chat (`db.query(Message).filter(Message.chat_id == cid)`). -/
def chatMessages (db : DB) (cid : Nat) : List MessageRow :=
  db.messages.filter (fun m => m.chat_id == cid)

/-- `db.query(User).filter(User.id.in_(ids)).all()` — the user rows whose id
occurs in `ids` (each existing user contributes one row). -/
def usersIn (db : DB) (ids : List Nat) : List Nat :=
  db.users.filter (fun u => ids.contains u)

/-- Request body of `POST /chats/` (schema `ChatCreate`). -/
structure ChatCreate where
  name : Option String
  is_group : Bool
  user_ids : List Nat
deriving DecidableEq, Repr

/-- The id list `create_chat` validates and writes (`chats.py`, lines
22–24): the request's ids with the creator appended when absent. -/
def effectiveIds (cur : Nat) (ids : List Nat) : List Nat :=
  if ids.contains cur then ids else ids ++ [cur]

/-- `create_chat` (`app/api/routes/chats.py`, lines 15–53).
The creator is appended to `user_ids` when absent; all ids are validated by
comparing the number of fetched user rows against the length of the id list;
the chat row and one membership row per id are then written, the creator's
with `is_admin = True`.  Returns the new state and the new chat's id. -/
def create_chat (db : DB) (current_user : Nat) (chat : ChatCreate) : Res (DB × Nat) :=
  let user_ids := effectiveIds current_user chat.user_ids
  let users := usersIn db user_ids
  if users.length ≠ user_ids.length then
    .error ⟨404, "One or more users not found"⟩
  else
    let cid := db.nextChatId
    let newRows := user_ids.map (fun uid => (⟨uid, cid, uid == current_user⟩ : UserChatRow))
    .ok ({ db with
            chats := db.chats ++ [⟨cid, chat.name, chat.is_group⟩],
            userChats := db.userChats ++ newRows,
            nextChatId := cid + 1 }, cid)

/-- The message with maximal `created_at` among a list — models
`order_by(desc(Message.created_at)).first()`. -/
def maxByCreated : List MessageRow → Option MessageRow
  | [] => none
  | m :: ms =>
    match maxByCreated ms with
    | none => some m
    | some b => if m.created_at < b.created_at then some b else some m

/-- Most recent message of a chat (`read_chat`'s `last_message` query). -/
def latestMessage (db : DB) (cid : Nat) : Option MessageRow :=
  maxByCreated (chatMessages db cid)

/-- Response of `GET /chats/{chat_id}` (schema `ChatDetail`); the member
list carries the ids of the joined user rows. -/
structure ChatDetail where
  id : Nat
  name : Option String
  is_group : Bool
  users : List Nat
  last_message : Option MessageRow
deriving DecidableEq, Repr

/-- `read_chat` (`app/api/routes/chats.py`, lines 94–139).
Membership is checked against the join table first (403), then chat
existence (404); on success the detail carries the chat's metadata, the
users joined through the membership table, and the most recent message. -/
def read_chat (db : DB) (chat_id current_user : Nat) : Res ChatDetail :=
  match findMembership db chat_id current_user with
  | none => .error ⟨403, "User is not a member of this chat"⟩
  | some _ =>
    match findChat db chat_id with
    | none => .error ⟨404, "Chat not found"⟩
    | some c =>
      .ok { id := c.id, name := c.name, is_group := c.is_group,
            users := db.users.filter (fun u => isMember db chat_id u),
            last_message := latestMessage db chat_id }

/-- `update_chat` (`app/api/routes/chats.py`, lines 141–177): admin check
(403), existence check (404), then the name is overwritten when provided. -/
def update_chat (db : DB) (chat_id current_user : Nat) (newName : Option String) :
    Res (DB × ChatRow) :=
  if !isAdmin db chat_id current_user then
    .error ⟨403, "User is not an admin of this chat"⟩
  else
    match findChat db chat_id with
    | none => .error ⟨404, "Chat not found"⟩
    | some c =>
      let c' := match newName with
        | some n => { c with name := some n }
        | none => c
      .ok ({ db with chats := db.chats.map (fun x => if x.id == chat_id then c' else x) }, c')

/-- `add_users_to_chat` (`app/api/routes/chats.py`, lines 179–244):
admin check (403), chat existence (404), group check (400), target
existence by row-count comparison (404); already-member ids are skipped,
each genuinely new id gets a non-admin membership row. -/
def add_users_to_chat (db : DB) (chat_id current_user : Nat) (user_ids : List Nat) : Res DB :=
  if !isAdmin db chat_id current_user then
    .error ⟨403, "User is not an admin of this chat"⟩
  else
    match findChat db chat_id with
    | none => .error ⟨404, "Chat not found"⟩
    | some c =>
      if !c.is_group then
        .error ⟨400, "Cannot add users to individual chat"⟩
      else if (usersIn db user_ids).length ≠ user_ids.length then
        .error ⟨404, "One or more users not found"⟩
      else
        let existing_user_ids :=
          (db.userChats.filter (fun uc => uc.chat_id == chat_id && user_ids.contains uc.user_id)).map
            (fun uc => uc.user_id)
        let new_user_ids := user_ids.filter (fun uid => !existing_user_ids.contains uid)
        .ok { db with
               userChats := db.userChats ++
                 new_user_ids.map (fun uid => (⟨uid, chat_id, false⟩ : UserChatRow)) }

/-- `remove_user_from_chat` (`app/api/routes/chats.py`, lines 246–296).
Self-removal is always allowed, otherwise the caller must be admin (403);
the target membership must exist (404).  The membership row is deleted,
then the remaining memberships of the chat are counted: if ≤ 1 remain, all
messages, all memberships and the chat row itself are deleted as well. -/
def remove_user_from_chat (db : DB) (chat_id user_id current_user : Nat) : Res DB :=
  let is_self_removal := current_user == user_id
  if !is_self_removal && !isAdmin db chat_id current_user then
    .error ⟨403, "User is not an admin of this chat"⟩
  else
    match findMembership db chat_id user_id with
    | none => .error ⟨404, "User not found in chat"⟩
    | some _ =>
      let ucs1 := db.userChats.eraseP (fun uc => uc.user_id == user_id && uc.chat_id == chat_id)
      let remaining := (ucs1.filter (fun uc => uc.chat_id == chat_id)).length
      if remaining ≤ 1 then
        .ok { db with
               messages := db.messages.filter (fun m => !(m.chat_id == chat_id)),
               userChats := ucs1.filter (fun uc => !(uc.chat_id == chat_id)),
               chats := db.chats.filter (fun c => !(c.id == chat_id)) }
      else
        .ok { db with userChats := ucs1 }

/-- Request body of `POST /messages/` (schema `MessageCreate`). -/
structure MessageCreate where
  content : String
  chat_id : Nat
deriving DecidableEq, Repr

/-- `create_message` (`app/api/routes/messages.py`, lines 14–49):
chat existence check (404), sender-membership check (403), then one
message row is inserted with `is_read = False`. -/
def create_message (db : DB) (current_user : Nat) (message : MessageCreate) :
    Res (DB × MessageRow) :=
  match findChat db message.chat_id with
  | none => .error ⟨404, "Chat not found"⟩
  | some _ =>
    if !isMember db message.chat_id current_user then
      .error ⟨403, "User is not a member of this chat"⟩
    else
      let row : MessageRow :=
        ⟨db.nextMessageId, message.content, current_user, message.chat_id, false, db.clock⟩
      .ok ({ db with
              messages := db.messages ++ [row],
              nextMessageId := db.nextMessageId + 1,
              clock := db.clock + 1 }, row)

/-- `db.query(Message).filter(Message.id == mid).first()`. -/
def findMessage (db : DB) (mid : Nat) : Option MessageRow :=
  db.messages.find? (fun m => m.id == mid)

/-- `update_message` (`app/api/routes/messages.py`, lines 94–123):
existence check (404), then the actor must be the message's sender
(403 otherwise — no admin override); the content is overwritten when the
update carries one. -/
def update_message (db : DB) (message_id : Nat) (newContent : Option String)
    (current_user : Nat) : Res (DB × MessageRow) :=
  match findMessage db message_id with
  | none => .error ⟨404, "Message not found"⟩
  | some m =>
    if m.sender_id ≠ current_user then
      .error ⟨403, "Cannot update messages from other users"⟩
    else
      let m' := match newContent with
        | some c => { m with content := c }
        | none => m
      .ok ({ db with
              messages := db.messages.map (fun x => if x.id == message_id then m' else x) }, m')

/-- `delete_message` (`app/api/routes/messages.py`, lines 125–150):
existence check (404), sender check (403), then the row is deleted. -/
def delete_message (db : DB) (message_id current_user : Nat) : Res DB :=
  match findMessage db message_id with
  | none => .error ⟨404, "Message not found"⟩
  | some m =>
    if m.sender_id ≠ current_user then
      .error ⟨403, "Cannot delete messages from other users"⟩
    else
      .ok { db with messages := db.messages.eraseP (fun x => x.id == message_id) }

/-- `mark_message_as_read` (`app/api/routes/messages.py`, lines 152–184):
existence check (404), then the actor must merely be a member of the
message's chat (403 otherwise — authorship is not required); the single
per-message `is_read` flag is set to `True` unconditionally. -/
def mark_message_as_read (db : DB) (message_id current_user : Nat) :
    Res (DB × MessageRow) :=
  match findMessage db message_id with
  | none => .error ⟨404, "Message not found"⟩
  | some m =>
    if !isMember db m.chat_id current_user then
      .error ⟨403, "User is not a member of this chat"⟩
    else
      let m' := { m with is_read := true }
      .ok ({ db with
              messages := db.messages.map (fun x => if x.id == message_id then m' else x) }, m')

/-- `get_unread_message_count` (`app/services/message_service.py`,
lines 202–221): for each chat the user belongs to, the number of messages
of that chat with `is_read == False` and a sender other than the user. -/
def get_unread_message_count (db : DB) (user_id : Nat) : List (Nat × Nat) :=
  (db.userChats.filter (fun uc => uc.user_id == user_id)).map (fun uc =>
    (uc.chat_id,
     (db.messages.filter (fun m =>
        m.chat_id == uc.chat_id && m.is_read == false && m.sender_id != user_id)).length))

/-- Python truthiness of `description or existing.description`
(`None` and the empty string are falsy). -/
def pyOrDescription (d old : Option String) : Option String :=
  match d with
  | some s => if s == "" then old else some s
  | none => old

/-- `db.query(AuthorizedIP).filter(user_id == u, ip_address == ip).first()`. -/
def findIpEntry (db : DB) (user_id : Nat) (ip : String) : Option AuthorizedIPRow :=
  db.authorizedIPs.find? (fun a => a.user_id == user_id && a.ip_address == ip)

/-- The rows of the allow-list for this (user, address) pair. -/
def pairRows (db : DB) (user_id : Nat) (ip : String) : List AuthorizedIPRow :=
  db.authorizedIPs.filter (fun a => a.user_id == user_id && a.ip_address == ip)

/-- The active rows of the allow-list for this (user, address) pair. -/
def activePairRows (db : DB) (user_id : Nat) (ip : String) : List AuthorizedIPRow :=
  (pairRows db user_id ip).filter (fun a => a.is_active)

/-- `register_authorized_ip` (`app/services/user_service.py`, lines 181–208).
If a row for (user, address) exists and is inactive, it is reactivated and
its description set to `description or existing.description`; if it exists
and is active nothing happens; otherwise a new active row is inserted. -/
def register_authorized_ip (db : DB) (user_id : Nat) (ip : String)
    (description : Option String) : DB :=
  match findIpEntry db user_id ip with
  | some existing =>
    if !existing.is_active then
      let reactivated :=
        updateFirstP db.authorizedIPs
          (fun a => a.user_id == user_id && a.ip_address == ip)
          (fun a => { a with is_active := true,
                             description := pyOrDescription description a.description })
      { db with authorizedIPs := reactivated }
    else db
  | none =>
    { db with authorizedIPs := db.authorizedIPs ++ [⟨user_id, ip, description, true, none⟩] }

/-- `deactivate_authorized_ip` (`app/services/user_service.py`,
lines 221–238): flips `is_active` to `False` on the matching active row and
reports `True`; reports `False` when no active match exists. -/
def deactivate_authorized_ip (db : DB) (user_id : Nat) (ip : String) : DB × Bool :=
  match db.authorizedIPs.find?
      (fun a => a.user_id == user_id && a.ip_address == ip && a.is_active) with
  | some _ =>
    let deactivated :=
      updateFirstP db.authorizedIPs
        (fun a => a.user_id == user_id && a.ip_address == ip && a.is_active)
        (fun a => { a with is_active := false })
    ({ db with authorizedIPs := deactivated }, true)
  | none => (db, false)

/-- The client information a live request object would carry. -/
structure ClientInfo where
  host : String
deriving DecidableEq, Repr

/-- The route `remove_authorized_ip` (`app/api/routes/users.py`, line 196)
retrieves the current request as `Request.scope.get("fastapi_aio_request")`.
`Request` there is the imported class itself, not an instance: the class has
no `scope` attribute, so this lookup raises `AttributeError` before any
request object is produced.  The failed lookup is modelled as `none`. -/
def fastapi_aio_request_lookup : Option ClientInfo := none

/-- `remove_authorized_ip` (`app/api/routes/users.py`, lines 185–212):
intended flow — reject removing the address the caller is connecting from
(400), otherwise deactivate the matching active entry (404 when none).
Because the request lookup above always fails, the handler raises before
reaching any of these checks; the unhandled exception is a 500 response. -/
def remove_authorized_ip (db : DB) (ip_address : String) (current_user : Nat) : Res DB :=
  match fastapi_aio_request_lookup with
  | none => .error ⟨500, "Internal Server Error"⟩
  | some req =>
    if req.host == ip_address then
      .error ⟨400, "Cannot remove the IP address you are currently using"⟩
    else
      let (db1, success) := deactivate_authorized_ip db current_user ip_address
      if success then .ok db1
      else .error ⟨404, "IP address not found or already deactivated"⟩

/-- An inbound HTTP request as seen by the `validate_ip` middleware. -/
structure GuardRequest where
  path : String
  method : String
  auth_header : Option String
  client_ip : String

/-- An internal fault inside the guard (invalid token, store error, …) —
in the Python code, any exception raised inside the `try` block. -/
structure GuardErr where
  message : String

/-- What the middleware does with the request: short-circuit with a 403
response echoing the rejected address, or hand the request to `call_next`
(the downstream handler). -/
inductive GuardOutcome where
  | forbidden (client_ip : String)
  | proceed
deriving DecidableEq, Repr

/-- `auth_header.startswith("Bearer ")`, computed on the character lists
(extensionally the same as the runtime's prefix test). -/
def startsWithBearer (h : String) : Bool :=
  "Bearer ".data.isPrefixOf h.data

/-- The public allow-list of `validate_ip` (`app/main.py`, lines 40–48). -/
def public_routes : List (String × String) :=
  [("/users/", "POST"), ("/users/token", "POST"), ("/", "GET"),
   ("/health", "GET"), ("/health/db", "GET"), ("/docs", "GET"),
   ("/openapi.json", "GET")]

/-- `validate_ip` (`app/main.py`, lines 34–92).  `resolve` models
`get_current_user(token, db)` (may fail), `checkIp` models
`check_ip_authorization(db, user.id, client_ip)` (may fail).  Public routes
pass through; with a bearer token whose user resolves and whose address
check returns `False`, the middleware answers 403 echoing the client
address; every failure inside the `try` block is swallowed and the request
proceeds downstream. -/
def validate_ip (resolve : String → Except GuardErr Nat)
    (checkIp : Nat → String → Except GuardErr Bool) (req : GuardRequest) : GuardOutcome :=
  if public_routes.any (fun r => req.path == r.1 && req.method == r.2) then
    .proceed
  else
    match req.auth_header with
    | some h =>
      if startsWithBearer h then
        let token := h.replace "Bearer " ""
        match resolve token with
        | .error _ => .proceed
        | .ok uid =>
          match checkIp uid req.client_ip with
          | .error _ => .proceed
          | .ok true => .proceed
          | .ok false => .forbidden req.client_ip
      else .proceed
    | none => .proceed

/-! ## Concrete states used by the scenario theorems -/

/-- A fresh store holding the single registered user 1. -/
def dbU1 : DB := ⟨[1], [], [], [], [], 1, 1, 0⟩

/-- A fresh store holding the registered users 1, 2, 3 (A, B, C). -/
def dbABC : DB := ⟨[1, 2, 3], [], [], [], [], 1, 1, 0⟩

/-- The store after user 1 creates the group chat {1, 2, 3}. -/
def groupChatDB : DB :=
  match create_chat dbABC 1 ⟨some "grp", true, [1, 2, 3]⟩ with
  | .ok (d, _) => d
  | .error _ => dbABC

/-- The store after user 2 then sends a message in that chat. -/
def groupChatMsgDB : DB :=
  match create_message groupChatDB 2 ⟨"hola", 1⟩ with
  | .ok (d, _) => d
  | .error _ => groupChatDB

/-- The store after user 1 then marks that message as read. -/
def groupChatReadDB : DB :=
  match mark_message_as_read groupChatMsgDB 1 1 with
  | .ok (d, _) => d
  | .error _ => groupChatMsgDB

/-! ## C1 — chat-membership lower bound -/

/-- C1, counterexample: the claimed invariant "no reachable state contains a
chat with zero or one member" fails at creation time — user 1 calling
`create_chat` with an empty member list produces a chat whose only member
is the creator, and the one-member chat persists in the resulting state. -/
theorem create_chat_yields_one_member_chat :
    create_chat dbU1 1 ⟨none, false, []⟩ =
      .ok (⟨[1], [⟨1, none, false⟩], [⟨1, 1, true⟩], [], [], 2, 1, 0⟩, 1) ∧
    chatExists ⟨[1], [⟨1, none, false⟩], [⟨1, 1, true⟩], [], [], 2, 1, 0⟩ 1 = true ∧
    memberCount ⟨[1], [⟨1, none, false⟩], [⟨1, 1, true⟩], [], [], 2, 1, 0⟩ 1 = 1 := by
  decide

/-- Searching with `p` in a list from which every `p`-element was filtered
out finds nothing. -/
theorem find?_filter_not {α : Type} (l : List α) (p : α → Bool) :
    (l.filter (fun x => !p x)).find? p = none := by
  rw [List.find?_eq_none]
  intro x hx
  have hmem := List.mem_filter.mp hx
  simpa using hmem.2

/-- Filtering with `p` after filtering with its negation yields nothing. -/
theorem filter_after_filter_not {α : Type} (l : List α) (p : α → Bool) :
    (l.filter (fun x => !p x)).filter p = [] := by
  rw [List.filter_eq_nil_iff]
  intro a ha
  have hmem := List.mem_filter.mp ha
  simpa using hmem.2

/-- C1 (amended): after a successful `remove_user_from_chat`, the resulting
state never holds the affected chat with fewer than two members — if the
membership count after the deletion is ≤ 1, the chat row, all its messages
and all its memberships are deleted within the same operation.  (The other
half of the original claim is false: `create_chat` can produce a chat with
a single member, see the counterexample.) -/
theorem remove_user_cascade_invariant (db : DB) (chat_id user_id current_user : Nat)
    (db' : DB) (h : remove_user_from_chat db chat_id user_id current_user = .ok db') :
    (chatExists db' chat_id = true → 2 ≤ memberCount db' chat_id) ∧
    (memberCount db' chat_id ≤ 1 →
       chatExists db' chat_id = false ∧ memberCount db' chat_id = 0 ∧
       chatMessages db' chat_id = []) := by
  simp only [remove_user_from_chat] at h
  split at h
  · exact absurd h (by simp)
  · split at h
    · exact absurd h (by simp)
    · split at h
      · -- cascade branch: everything about the chat is gone
        injection h with h
        subst h
        constructor
        · intro hex
          rw [chatExists, findChat] at hex
          simp only [find?_filter_not] at hex
          exact absurd hex (by simp)
        · intro _
          refine ⟨?_, ?_, ?_⟩
          · rw [chatExists, findChat]
            simp only [find?_filter_not, Option.isSome_none]
          · rw [memberCount]
            simp only [filter_after_filter_not, List.length_nil]
          · rw [chatMessages]
            simp only [filter_after_filter_not]
      · -- plain removal: at least two members remain
        injection h with h
        subst h
        rename_i hgt
        push_neg at hgt
        constructor
        · intro _
          exact hgt
        · intro hle
          exact absurd hle (not_le.mpr hgt)

/-- A store holding a two-member chat with one message. -/
def dbPair : DB :=
  ⟨[1, 2], [⟨1, none, false⟩], [⟨1, 1, true⟩, ⟨2, 1, false⟩], [⟨1, "x", 1, 1, false, 0⟩],
   [], 2, 2, 1⟩

/-- The store after the admin removes user 2 from the two-member chat:
the cascade deletes the chat, its memberships and its messages. -/
def dbPairGone : DB := ⟨[1, 2], [], [], [], [], 2, 2, 1⟩

/-- Witness for `remove_user_cascade_invariant`: removing one of the two
members of `dbPair`'s chat leaves one membership, so the cascade fires. -/
theorem remove_user_cascade_invariant_witness :
    (chatExists dbPairGone 1 = true → 2 ≤ memberCount dbPairGone 1) ∧
    (memberCount dbPairGone 1 ≤ 1 →
       chatExists dbPairGone 1 = false ∧ memberCount dbPairGone 1 = 0 ∧
       chatMessages dbPairGone 1 = []) :=
  remove_user_cascade_invariant dbPair 1 2 1 dbPairGone (by decide)

/-! ## C7 — unread-count scenario -/

/-- C7, counterexample: in the spec's scenario (A creates group chat with
A, B, C; B sends a message; A marks it read) the unread count reported for
C on that chat is 0, not 1 as claimed: the read flag is a single per-message
column, so A's mark-read clears the message for every member.  The first
three conjuncts pin down that every step of the scenario succeeded. -/
theorem unread_scenario_count_for_C_is_zero :
    create_chat dbABC 1 ⟨some "grp", true, [1, 2, 3]⟩ = .ok (groupChatDB, 1) ∧
    create_message groupChatDB 2 ⟨"hola", 1⟩ =
      .ok (groupChatMsgDB, ⟨1, "hola", 2, 1, false, 0⟩) ∧
    mark_message_as_read groupChatMsgDB 1 1 =
      .ok (groupChatReadDB, ⟨1, "hola", 2, 1, true, 0⟩) ∧
    get_unread_message_count groupChatReadDB 3 = [(1, 0)] ∧
    get_unread_message_count groupChatReadDB 3 ≠ [(1, 1)] := by
  decide

/-- C7 (amended): in the scenario, before A marks the message read the
unread count on the chat is 1 for A and 1 for C; after A marks it read it
is 0 for A and also 0 for C — the read flag is stored once per message, so
one member marking it read clears it for all members. -/
theorem unread_scenario_shared_read_flag :
    get_unread_message_count groupChatMsgDB 1 = [(1, 1)] ∧
    get_unread_message_count groupChatMsgDB 3 = [(1, 1)] ∧
    get_unread_message_count groupChatReadDB 1 = [(1, 0)] ∧
    get_unread_message_count groupChatReadDB 3 = [(1, 0)] := by
  decide

/-! ## C8 — creator membership/admin invariant -/

/-- C8, counterexample: the creator of a chat is not always a member of it.
User 1 creates the group chat {1, 2, 3} (becoming its admin), then removes
themself; two memberships remain so no cascade fires, the chat persists,
and its creator is no longer a member. -/
theorem creator_removed_while_chat_persists :
    create_chat dbABC 1 ⟨some "grp", true, [1, 2, 3]⟩ = .ok (groupChatDB, 1) ∧
    isAdmin groupChatDB 1 1 = true ∧
    remove_user_from_chat groupChatDB 1 1 1 =
      .ok ⟨[1, 2, 3], [⟨1, some "grp", true⟩],
           [⟨2, 1, false⟩, ⟨3, 1, false⟩], [], [], 2, 1, 0⟩ ∧
    chatExists ⟨[1, 2, 3], [⟨1, some "grp", true⟩],
         [⟨2, 1, false⟩, ⟨3, 1, false⟩], [], [], 2, 1, 0⟩ 1 = true ∧
    isMember ⟨[1, 2, 3], [⟨1, some "grp", true⟩],
         [⟨2, 1, false⟩, ⟨3, 1, false⟩], [], [], 2, 1, 0⟩ 1 1 = false := by
  decide

/-! ## C6 — allow-list upsert -/

/-- A store holding one deactivated allow-list entry for user 1. -/
def dbInactiveIp : DB := ⟨[1], [], [], [], [⟨1, "8.8.8.8", some "old", false, none⟩], 1, 1, 0⟩

/-- C6, counterexample: reactivating an inactive entry does not always
overwrite its description.  `register_authorized_ip` called with no
description (`None`, the parameter's default) on an inactive entry
reactivates it but keeps the old description, because the code assigns
`description or existing.description`. -/
theorem register_ip_keeps_old_description :
    register_authorized_ip dbInactiveIp 1 "8.8.8.8" none =
      ⟨[1], [], [], [], [⟨1, "8.8.8.8", some "old", true, none⟩], 1, 1, 0⟩ ∧
    (some "old" : Option String) ≠ none := by
  decide

/-! ## C9 — allow-list removal endpoint -/

/-- C9 (code bug): every call to the allow-list removal endpoint fails with
an internal error before any check runs.  The handler's very first step,
`Request.scope.get("fastapi_aio_request")`, accesses `scope` on the
`Request` class itself, which raises `AttributeError`; neither the
self-address `BadRequest` rejection nor the deactivation/`NotFound` path
is ever reached, and the store is never modified. -/
theorem remove_authorized_ip_always_internal_error
    (db : DB) (ip : String) (current_user : Nat) :
    remove_authorized_ip db ip current_user = .error ⟨500, "Internal Server Error"⟩ := by
  rfl

/-! ## C2 — Access Guard behavior -/

/-- C2: on a non-public route, when a bearer token resolves to a user whose
connecting address fails the IP check, `validate_ip` short-circuits with a
403 echoing the rejected client address (so the request never reaches the
downstream handler); when there is no bearer header, when the header is not
a bearer header, when token resolution fails, or when the IP check itself
fails internally, the guard hands the request to the downstream handler
unchanged — guard failures never surface as authorization failures. -/
theorem validate_ip_guard_behavior (resolve : String → Except GuardErr Nat)
    (checkIp : Nat → String → Except GuardErr Bool) (req : GuardRequest)
    (hpub : public_routes.any (fun r => req.path == r.1 && req.method == r.2) = false) :
    (∀ h uid, req.auth_header = some h → startsWithBearer h = true →
        resolve (h.replace "Bearer " "") = .ok uid →
        checkIp uid req.client_ip = .ok false →
        validate_ip resolve checkIp req = .forbidden req.client_ip) ∧
    (req.auth_header = none → validate_ip resolve checkIp req = .proceed) ∧
    (∀ h, req.auth_header = some h → startsWithBearer h = false →
        validate_ip resolve checkIp req = .proceed) ∧
    (∀ h e, req.auth_header = some h → startsWithBearer h = true →
        resolve (h.replace "Bearer " "") = .error e →
        validate_ip resolve checkIp req = .proceed) ∧
    (∀ h uid e, req.auth_header = some h → startsWithBearer h = true →
        resolve (h.replace "Bearer " "") = .ok uid →
        checkIp uid req.client_ip = .error e →
        validate_ip resolve checkIp req = .proceed) ∧
    (∀ h uid, req.auth_header = some h → startsWithBearer h = true →
        resolve (h.replace "Bearer " "") = .ok uid →
        checkIp uid req.client_ip = .ok true →
        validate_ip resolve checkIp req = .proceed) := by
  refine ⟨?_, ?_, ?_, ?_, ?_, ?_⟩
  · intro h uid hh hb hres hchk
    simp [validate_ip, hpub, hh, hb, hres, hchk]
  · intro hh
    simp [validate_ip, hpub, hh]
  · intro h hh hb
    simp [validate_ip, hpub, hh, hb]
  · intro h e hh hb hres
    simp [validate_ip, hpub, hh, hb, hres]
  · intro h uid e hh hb hres hchk
    simp [validate_ip, hpub, hh, hb, hres, hchk]
  · intro h uid hh hb hres hchk
    simp [validate_ip, hpub, hh, hb, hres, hchk]

/-- A token resolver that accepts every token as user 7. -/
def resolveAs7 : String → Except GuardErr Nat := fun _ => .ok 7

/-- An IP check that rejects every address. -/
def rejectAllIps : Nat → String → Except GuardErr Bool := fun _ _ => .ok false

/-- A request to the (non-public) chat-list route with a bearer header. -/
def guardedReq : GuardRequest :=
  ⟨"/chats/", "GET", some "Bearer tok", "9.9.9.9"⟩

/-- Witness for `validate_ip_guard_behavior` at a concrete request whose
token resolves to user 7 and whose address fails the check. -/
theorem validate_ip_guard_behavior_witness :
    validate_ip resolveAs7 rejectAllIps guardedReq = .forbidden "9.9.9.9" :=
  (validate_ip_guard_behavior resolveAs7 rejectAllIps guardedReq (by decide)).1
    "Bearer tok" 7 rfl (by decide) rfl rfl

/-! ## C3 — `create_chat` correctness -/

/-- If some requested id is missing from the (duplicate-free) users table,
the fetched rows are strictly fewer than the requested ids. -/
theorem usersIn_length_lt_of_missing (users ids : List Nat) (hnd : users.Nodup)
    (u : Nat) (hu : u ∈ ids) (hnu : u ∉ users) :
    (users.filter (fun x => ids.contains x)).length < ids.length := by
  have hfilnd : (users.filter (fun x => ids.contains x)).Nodup := hnd.filter _
  have hlen : (users.filter (fun x => ids.contains x)).length =
      (users.filter (fun x => ids.contains x)).toFinset.card :=
    (List.toFinset_card_of_nodup hfilnd).symm
  have hsub : (users.filter (fun x => ids.contains x)).toFinset ⊆ ids.toFinset.erase u := by
    intro x hx
    rw [List.mem_toFinset] at hx
    have hx' := List.mem_filter.mp hx
    rw [Finset.mem_erase]
    refine ⟨?_, ?_⟩
    · rintro rfl
      exact hnu hx'.1
    · rw [List.mem_toFinset]
      simpa using hx'.2
  have hcard := Finset.card_le_card hsub
  have herase : (ids.toFinset.erase u).card < ids.toFinset.card :=
    Finset.card_erase_lt_of_mem (List.mem_toFinset.mpr hu)
  have htf : ids.toFinset.card ≤ ids.length := ids.toFinset_card_le
  omega

/-- A list that is not duplicate-free strictly shrinks under `dedup`. -/
theorem dedup_length_lt_of_not_nodup (l : List Nat) (h : ¬ l.Nodup) :
    l.dedup.length < l.length := by
  have hs := List.dedup_sublist l
  have hle := hs.length_le
  rcases Nat.lt_or_ge l.dedup.length l.length with hlt | hge
  · exact hlt
  · exfalso
    have heq : l.dedup = l := hs.eq_of_length (Nat.le_antisymm hle hge)
    exact h (heq ▸ l.nodup_dedup)

/-- If the requested ids contain a duplicate, the fetched rows are strictly
fewer than the requested ids even when every id exists. -/
theorem usersIn_length_lt_of_dup (users ids : List Nat) (hnd : users.Nodup)
    (hdup : ¬ ids.Nodup) :
    (users.filter (fun x => ids.contains x)).length < ids.length := by
  have hfilnd : (users.filter (fun x => ids.contains x)).Nodup := hnd.filter _
  have hlen : (users.filter (fun x => ids.contains x)).length =
      (users.filter (fun x => ids.contains x)).toFinset.card :=
    (List.toFinset_card_of_nodup hfilnd).symm
  have hsub : (users.filter (fun x => ids.contains x)).toFinset ⊆ ids.toFinset := by
    intro x hx
    rw [List.mem_toFinset] at hx
    have hx' := List.mem_filter.mp hx
    rw [List.mem_toFinset]
    simpa using hx'.2
  have hcard := Finset.card_le_card hsub
  have htf : ids.toFinset.card = ids.dedup.length := List.card_toFinset ids
  have hdl := dedup_length_lt_of_not_nodup ids hdup
  omega

/-- C3: on success, `create_chat` makes the creator a member with the admin
flag even when absent from the request list, makes every requested id a
member, and gives every written membership of the new chat other than the
creator's `admin = false`; if any requested id does not exist, the call
fails with 404 "One or more users not found" (and, the error carrying no
state, no chat or membership row is written).  The `hfresh` hypothesis is
the autoincrement-key invariant: no existing membership row references the
yet-unassigned next chat id. -/
theorem create_chat_correctness (db : DB) (cur : Nat) (req : ChatCreate)
    (hnodup : db.users.Nodup)
    (hfresh : ∀ uc ∈ db.userChats, uc.chat_id < db.nextChatId) :
    (∀ db' cid, create_chat db cur req = .ok (db', cid) →
        isMember db' cid cur = true ∧ isAdmin db' cid cur = true ∧
        (∀ u ∈ req.user_ids, isMember db' cid u = true) ∧
        (∀ uc ∈ db'.userChats, uc.chat_id = cid → uc.user_id ≠ cur →
            uc.is_admin = false)) ∧
    (∀ u ∈ req.user_ids, u ∉ db.users →
        create_chat db cur req = .error ⟨404, "One or more users not found"⟩) := by
  constructor
  · intro db' cid h
    simp only [create_chat] at h
    split at h
    · exact absurd h (by simp)
    · injection h with h
      injection h with hdb hcid
      subst hdb
      subst hcid
      have hcurmem : cur ∈ effectiveIds cur req.user_ids := by
        rw [effectiveIds]
        split
        · rename_i hc
          simpa using hc
        · simp
      refine ⟨?_, ?_, ?_, ?_⟩
      · exact List.find?_isSome.mpr
          ⟨⟨cur, db.nextChatId, cur == cur⟩,
           List.mem_append.mpr (Or.inr (List.mem_map.mpr ⟨cur, hcurmem, rfl⟩)),
           by simp⟩
      · exact List.find?_isSome.mpr
          ⟨⟨cur, db.nextChatId, cur == cur⟩,
           List.mem_append.mpr (Or.inr (List.mem_map.mpr ⟨cur, hcurmem, rfl⟩)),
           by simp⟩
      · intro u hu
        have humem : u ∈ effectiveIds cur req.user_ids := by
          rw [effectiveIds]
          split
          · exact hu
          · exact List.mem_append.mpr (Or.inl hu)
        exact List.find?_isSome.mpr
          ⟨⟨u, db.nextChatId, u == cur⟩,
           List.mem_append.mpr (Or.inr (List.mem_map.mpr ⟨u, humem, rfl⟩)),
           by simp⟩
      · intro uc hmem hcid hne
        simp only [List.mem_append] at hmem
        rcases hmem with hold | hnew
        · have := hfresh uc hold
          omega
        · rcases List.mem_map.mp hnew with ⟨u, _, rfl⟩
          simp only at hne ⊢
          exact beq_eq_false_iff_ne.mpr hne
  · intro u hu hnu
    have humem : u ∈ effectiveIds cur req.user_ids := by
      rw [effectiveIds]
      split
      · exact hu
      · exact List.mem_append.mpr (Or.inl hu)
    have hlt := usersIn_length_lt_of_missing db.users (effectiveIds cur req.user_ids)
      hnodup u humem hnu
    simp only [create_chat, usersIn]
    rw [if_pos (Nat.ne_of_lt hlt)]

/-- Witness for `create_chat_correctness`: user 1 creates a chat with
users 2 and 3 over the three-user store. -/
theorem create_chat_correctness_witness :
    (∀ db' cid, create_chat dbABC 1 ⟨some "grp", true, [2, 3]⟩ = .ok (db', cid) →
        isMember db' cid 1 = true ∧ isAdmin db' cid 1 = true ∧
        (∀ u ∈ [2, 3], isMember db' cid u = true) ∧
        (∀ uc ∈ db'.userChats, uc.chat_id = cid → uc.user_id ≠ 1 →
            uc.is_admin = false)) ∧
    (∀ u ∈ [2, 3], u ∉ dbABC.users →
        create_chat dbABC 1 ⟨some "grp", true, [2, 3]⟩ =
          .error ⟨404, "One or more users not found"⟩) :=
  create_chat_correctness dbABC 1 ⟨some "grp", true, [2, 3]⟩ (by decide)
    (by intro uc h; simp [dbABC] at h)

/-! ## C4 — message mutation rights -/

/-- Mapping a function that fixes every element of a list is the identity. -/
theorem map_eq_self_of_eq {α : Type} (l : List α) (f : α → α) (h : ∀ x ∈ l, f x = x) :
    l.map f = l := by
  induction l with
  | nil => rfl
  | cons a as ih =>
    rw [List.map_cons, h a (List.mem_cons_self a as),
      ih (fun x hx => h x (List.mem_cons_of_mem a hx))]

/-- C4: an existing message can be updated or deleted only by its original
sender — any other actor, chat admins included (the actor is universally
quantified and no admin lookup occurs), receives 403; marking the message
read requires only membership in the message's chat (403 for non-members,
success for any member regardless of authorship) and always reports the
message with `is_read = true`; re-marking an already-read message succeeds
and returns the state and the message completely unchanged. -/
theorem message_mutation_rights (db : DB) (mid cur : Nat) (nc : Option String)
    (m : MessageRow) (hm : findMessage db mid = some m) :
    (m.sender_id ≠ cur →
        update_message db mid nc cur =
          .error ⟨403, "Cannot update messages from other users"⟩ ∧
        delete_message db mid cur =
          .error ⟨403, "Cannot delete messages from other users"⟩) ∧
    (∀ db2 m2, update_message db mid nc cur = .ok (db2, m2) → m.sender_id = cur) ∧
    (∀ db2, delete_message db mid cur = .ok db2 → m.sender_id = cur) ∧
    (isMember db m.chat_id cur = true →
        ∃ db2 m2, mark_message_as_read db mid cur = .ok (db2, m2) ∧
          m2.is_read = true) ∧
    (isMember db m.chat_id cur = false →
        mark_message_as_read db mid cur =
          .error ⟨403, "User is not a member of this chat"⟩) ∧
    ((db.messages.map (fun x => x.id)).Nodup → m.is_read = true →
        isMember db m.chat_id cur = true →
        mark_message_as_read db mid cur = .ok (db, m)) := by
  refine ⟨?_, ?_, ?_, ?_, ?_, ?_⟩
  · intro hne
    constructor
    · simp [update_message, hm, hne]
    · simp [delete_message, hm, hne]
  · intro db2 m2 h
    by_contra hne
    simp [update_message, hm, hne] at h
  · intro db2 h
    by_contra hne
    simp [delete_message, hm, hne] at h
  · intro hmem
    refine ⟨{ db with messages := db.messages.map (fun x => if x.id == mid then { m with is_read := true } else x) }, { m with is_read := true }, ?_, rfl⟩
    simp [mark_message_as_read, hm, hmem]
  · intro hmem
    simp [mark_message_as_read, hm, hmem]
  · intro hnd hread hmem
    have hmmem : m ∈ db.messages := List.mem_of_find?_eq_some hm
    have hid : m.id = mid := by simpa using List.find?_some hm
    have hmself : ({ m with is_read := true } : MessageRow) = m := by
      cases m
      simp_all
    have hmap : db.messages.map
        (fun x => if x.id == mid then m else x) = db.messages := by
      apply map_eq_self_of_eq
      intro x hx
      by_cases hxid : (x.id == mid) = true
      · have hxm : x = m := by
          apply List.inj_on_of_nodup_map hnd hx hmmem
          show x.id = m.id
          rw [hid]
          exact beq_iff_eq.mp hxid
        rw [if_pos hxid, hxm]
      · rw [if_neg hxid]
    simp only [mark_message_as_read, hm, hmem, Bool.not_true, Bool.false_eq_true,
      if_false, hmself, hmap]

/-- Witness for `message_mutation_rights`: in the group-chat store with
B's message, actor C (user 3) is a member but not the sender. -/
theorem message_mutation_rights_witness :
    ((⟨1, "hola", 2, 1, false, 0⟩ : MessageRow).sender_id ≠ 3 →
        update_message groupChatMsgDB 1 none 3 =
          .error ⟨403, "Cannot update messages from other users"⟩ ∧
        delete_message groupChatMsgDB 1 3 =
          .error ⟨403, "Cannot delete messages from other users"⟩) ∧
    (∀ db2 m2, update_message groupChatMsgDB 1 none 3 = .ok (db2, m2) →
        (⟨1, "hola", 2, 1, false, 0⟩ : MessageRow).sender_id = 3) ∧
    (∀ db2, delete_message groupChatMsgDB 1 3 = .ok db2 →
        (⟨1, "hola", 2, 1, false, 0⟩ : MessageRow).sender_id = 3) ∧
    (isMember groupChatMsgDB (⟨1, "hola", 2, 1, false, 0⟩ : MessageRow).chat_id 3 = true →
        ∃ db2 m2, mark_message_as_read groupChatMsgDB 1 3 = .ok (db2, m2) ∧
          m2.is_read = true) ∧
    (isMember groupChatMsgDB (⟨1, "hola", 2, 1, false, 0⟩ : MessageRow).chat_id 3 = false →
        mark_message_as_read groupChatMsgDB 1 3 =
          .error ⟨403, "User is not a member of this chat"⟩) ∧
    ((groupChatMsgDB.messages.map (fun x => x.id)).Nodup →
        (⟨1, "hola", 2, 1, false, 0⟩ : MessageRow).is_read = true →
        isMember groupChatMsgDB (⟨1, "hola", 2, 1, false, 0⟩ : MessageRow).chat_id 3 = true →
        mark_message_as_read groupChatMsgDB 1 3 = .ok (groupChatMsgDB, ⟨1, "hola", 2, 1, false, 0⟩)) :=
  message_mutation_rights groupChatMsgDB 1 3 none ⟨1, "hola", 2, 1, false, 0⟩ (by decide)

/-! ## C5 — `read_chat` check ordering -/

/-- `maxByCreated` returns nothing exactly on the empty list. -/
theorem maxByCreated_eq_none_iff (l : List MessageRow) :
    maxByCreated l = none ↔ l = [] := by
  cases l with
  | nil => simp [maxByCreated]
  | cons m ms =>
    rw [maxByCreated]
    cases hrec : maxByCreated ms with
    | none =>
      show (some m : Option MessageRow) = none ↔ m :: ms = []
      simp
    | some b =>
      show (if m.created_at < b.created_at then some b else some m) = none ↔ m :: ms = []
      constructor
      · intro h
        split at h <;> exact absurd h (by simp)
      · intro h
        exact absurd h (by simp)

/-- The message returned by `maxByCreated` belongs to the list and carries
its maximal creation instant. -/
theorem maxByCreated_spec (l : List MessageRow) :
    ∀ m, maxByCreated l = some m →
      m ∈ l ∧ ∀ x ∈ l, x.created_at ≤ m.created_at := by
  induction l with
  | nil =>
    intro m h
    simp [maxByCreated] at h
  | cons a as ih =>
    intro m h
    rw [maxByCreated] at h
    cases hrec : maxByCreated as with
    | none =>
      rw [hrec] at h
      injection h with h
      subst h
      have hnil := (maxByCreated_eq_none_iff as).mp hrec
      subst hnil
      simp
    | some b =>
      rw [hrec] at h
      have h2 : (if a.created_at < b.created_at then some b else some a) = some m := h
      clear h
      rename' h2 => h
      rcases ih b hrec with ⟨hbmem, hbmax⟩
      by_cases hlt : a.created_at < b.created_at
      · rw [if_pos hlt] at h
        injection h with h
        subst h
        refine ⟨List.mem_cons_of_mem a hbmem, ?_⟩
        intro x hx
        rcases List.mem_cons.mp hx with rfl | hx2
        · exact Nat.le_of_lt hlt
        · exact hbmax x hx2
      · rw [if_neg hlt] at h
        injection h with h
        subst h
        refine ⟨List.mem_cons_self a as, ?_⟩
        intro x hx
        rcases List.mem_cons.mp hx with rfl | hx2
        · exact Nat.le_refl _
        · exact Nat.le_trans (hbmax x hx2) (Nat.le_of_not_lt hlt)

/-- C5: the membership check of `read_chat` precedes the existence check —
a non-member receives 403 even when the chat row does not exist, and 404 is
produced exactly for a member of a chat whose row is missing; a member of
an existing chat receives the chat's metadata, the member list (exactly the
existing users holding a membership row), and the most recently created
message of the chat (none exactly when the chat has no messages). -/
theorem read_chat_check_order (db : DB) (cid cur : Nat) :
    (isMember db cid cur = false →
        read_chat db cid cur = .error ⟨403, "User is not a member of this chat"⟩) ∧
    (isMember db cid cur = true → chatExists db cid = false →
        read_chat db cid cur = .error ⟨404, "Chat not found"⟩) ∧
    (∀ d, read_chat db cid cur = .ok d →
        isMember db cid cur = true ∧ chatExists db cid = true ∧
        (∃ c, findChat db cid = some c ∧ d.id = c.id ∧ d.name = c.name ∧
           d.is_group = c.is_group) ∧
        (∀ u, u ∈ d.users ↔ u ∈ db.users ∧ isMember db cid u = true) ∧
        (d.last_message = none ↔ chatMessages db cid = []) ∧
        (∀ m, d.last_message = some m →
            m ∈ chatMessages db cid ∧
            ∀ m2 ∈ chatMessages db cid, m2.created_at ≤ m.created_at)) := by
  refine ⟨?_, ?_, ?_⟩
  · intro hmem
    have hnone : findMembership db cid cur = none := by
      rw [isMember] at hmem
      exact Option.not_isSome_iff_eq_none.mp (by simp [hmem])
    simp [read_chat, hnone]
  · intro hmem hex
    rcases Option.isSome_iff_exists.mp hmem with ⟨uc, huc⟩
    have hnone : findChat db cid = none := by
      rw [chatExists] at hex
      exact Option.not_isSome_iff_eq_none.mp (by simp [hex])
    simp [read_chat, huc, hnone]
  · intro d h
    rw [read_chat] at h
    cases hmem : findMembership db cid cur with
    | none =>
      rw [hmem] at h
      exact absurd h (by simp)
    | some uc =>
      rw [hmem] at h
      cases hc : findChat db cid with
      | none =>
        rw [hc] at h
        exact absurd h (by simp)
      | some c =>
        rw [hc] at h
        injection h with h
        subst h
        refine ⟨by simp [isMember, hmem], by simp [chatExists, hc], ?_, ?_, ?_, ?_⟩
        · refine ⟨c, ?_, ?_, ?_, ?_⟩ <;> rfl
        · intro u
          simp [List.mem_filter]
        · exact maxByCreated_eq_none_iff (chatMessages db cid)
        · intro m hm
          exact maxByCreated_spec (chatMessages db cid) m hm

/-- Witness for `read_chat_check_order`: evaluated over the group-chat
store with one message, for member 3. -/
theorem read_chat_check_order_witness :
    (isMember groupChatMsgDB 1 3 = false →
        read_chat groupChatMsgDB 1 3 = .error ⟨403, "User is not a member of this chat"⟩) ∧
    (isMember groupChatMsgDB 1 3 = true → chatExists groupChatMsgDB 1 = false →
        read_chat groupChatMsgDB 1 3 = .error ⟨404, "Chat not found"⟩) ∧
    (∀ d, read_chat groupChatMsgDB 1 3 = .ok d →
        isMember groupChatMsgDB 1 3 = true ∧ chatExists groupChatMsgDB 1 = true ∧
        (∃ c, findChat groupChatMsgDB 1 = some c ∧ d.id = c.id ∧ d.name = c.name ∧
           d.is_group = c.is_group) ∧
        (∀ u, u ∈ d.users ↔ u ∈ groupChatMsgDB.users ∧ isMember groupChatMsgDB 1 u = true) ∧
        (d.last_message = none ↔ chatMessages groupChatMsgDB 1 = []) ∧
        (∀ m, d.last_message = some m →
            m ∈ chatMessages groupChatMsgDB 1 ∧
            ∀ m2 ∈ chatMessages groupChatMsgDB 1, m2.created_at ≤ m.created_at)) :=
  read_chat_check_order groupChatMsgDB 1 3

/-! ## C10 — duplicate ids in membership requests -/

/-- C10: when the user-id list of a `create_chat` or `add_users_to_chat`
request contains the same id more than once, the operation fails with
404 "One or more users not found" — no existence hypothesis is needed, so
in particular this holds when every referenced user exists: the validation
compares the number of distinct fetched users with the length of the raw
request list.  The error carries no state, so no rows are written.  (For
`add_users_to_chat` the caller must pass its admin/existence/group checks
to reach the user validation at all.) -/
theorem duplicate_user_ids_rejected (db : DB) (hnodup : db.users.Nodup) :
    (∀ cur req, ¬ req.user_ids.Nodup →
        create_chat db cur req = .error ⟨404, "One or more users not found"⟩) ∧
    (∀ chat_id cur uids c, isAdmin db chat_id cur = true →
        findChat db chat_id = some c → c.is_group = true → ¬ uids.Nodup →
        add_users_to_chat db chat_id cur uids =
          .error ⟨404, "One or more users not found"⟩) := by
  constructor
  · intro cur req hdup
    have hdup2 : ¬ (effectiveIds cur req.user_ids).Nodup := by
      rw [effectiveIds]
      split
      · exact hdup
      · intro hnd
        exact hdup hnd.of_append_left
    have hlt := usersIn_length_lt_of_dup db.users (effectiveIds cur req.user_ids) hnodup hdup2
    simp only [create_chat, usersIn]
    rw [if_pos (Nat.ne_of_lt hlt)]
  · intro chat_id cur uids c hadm hfc hgrp hdup
    have hlt := usersIn_length_lt_of_dup db.users uids hnodup hdup
    simp only [add_users_to_chat, hadm, hfc, hgrp, usersIn, Bool.not_true,
      Bool.false_eq_true, if_false]
    rw [if_pos (Nat.ne_of_lt hlt)]

/-- Witness for `duplicate_user_ids_rejected`: the duplicate list `[2, 2]`
(both referencing the existing user 2) is rejected by chat creation over
the three-user store and by member addition on the existing group chat. -/
theorem duplicate_user_ids_rejected_witness :
    create_chat dbABC 1 ⟨none, true, [2, 2]⟩ =
      .error ⟨404, "One or more users not found"⟩ ∧
    add_users_to_chat groupChatDB 1 1 [2, 2] =
      .error ⟨404, "One or more users not found"⟩ :=
  ⟨(duplicate_user_ids_rejected dbABC (by decide)).1 1 ⟨none, true, [2, 2]⟩ (by decide),
   (duplicate_user_ids_rejected groupChatDB (by decide)).2 1 1 [2, 2]
     ⟨1, some "grp", true⟩ (by decide) (by decide) rfl (by decide)⟩

/-! ## C8 — creator admin flag: creation and preservation -/

/-- A successful search in a list also succeeds in any right-extension. -/
theorem find?_append_left {α : Type} (l1 l2 : List α) (p : α → Bool)
    (h : (l1.find? p).isSome = true) : ((l1 ++ l2).find? p).isSome = true := by
  rcases List.find?_isSome.mp h with ⟨x, hx, hpx⟩
  exact List.find?_isSome.mpr ⟨x, List.mem_append.mpr (Or.inl hx), hpx⟩

/-- C8 (amended): immediately after a successful `create_chat` the creator
is a member of the new chat and holds the admin flag; `add_users_to_chat`
only appends membership rows (so every admin stays admin), and
`update_chat` and all four message operations leave the membership table
untouched.  (The original claim's "preserved by every subsequent operation"
is false: `remove_user_from_chat` can remove the creator while the chat
persists, see the counterexample.) -/
theorem creator_admin_at_creation_preserved (db : DB) :
    (∀ cur req db2 cid, create_chat db cur req = .ok (db2, cid) →
        isMember db2 cid cur = true ∧ isAdmin db2 cid cur = true) ∧
    (∀ chat_id cur uids db2, add_users_to_chat db chat_id cur uids = .ok db2 →
        ∀ c u, isAdmin db c u = true → isAdmin db2 c u = true) ∧
    (∀ chat_id cur nm db2 cr, update_chat db chat_id cur nm = .ok (db2, cr) →
        db2.userChats = db.userChats) ∧
    (∀ cur mc db2 m, create_message db cur mc = .ok (db2, m) →
        db2.userChats = db.userChats) ∧
    (∀ mid nc cur db2 m, update_message db mid nc cur = .ok (db2, m) →
        db2.userChats = db.userChats) ∧
    (∀ mid cur db2, delete_message db mid cur = .ok db2 →
        db2.userChats = db.userChats) ∧
    (∀ mid cur db2 m, mark_message_as_read db mid cur = .ok (db2, m) →
        db2.userChats = db.userChats) := by
  refine ⟨?_, ?_, ?_, ?_, ?_, ?_, ?_⟩
  · intro cur req db2 cid h
    simp only [create_chat] at h
    split at h
    · exact absurd h (by simp)
    · injection h with h
      injection h with hdb hcid
      subst hdb
      subst hcid
      have hcurmem : cur ∈ effectiveIds cur req.user_ids := by
        rw [effectiveIds]
        split
        · rename_i hcon
          simpa using hcon
        · simp
      constructor
      · exact List.find?_isSome.mpr
          ⟨⟨cur, db.nextChatId, cur == cur⟩,
           List.mem_append.mpr (Or.inr (List.mem_map.mpr ⟨cur, hcurmem, rfl⟩)),
           by simp⟩
      · exact List.find?_isSome.mpr
          ⟨⟨cur, db.nextChatId, cur == cur⟩,
           List.mem_append.mpr (Or.inr (List.mem_map.mpr ⟨cur, hcurmem, rfl⟩)),
           by simp⟩
  · intro chat_id cur uids db2 h
    simp only [add_users_to_chat] at h
    split at h
    · exact absurd h (by simp)
    · split at h
      · exact absurd h (by simp)
      · split at h
        · exact absurd h (by simp)
        · split at h
          · exact absurd h (by simp)
          · injection h with h
            subst h
            intro c u hadm
            exact find?_append_left db.userChats _ _ hadm
  · intro chat_id cur nm db2 cr h
    simp only [update_chat] at h
    split at h
    · exact absurd h (by simp)
    · split at h
      · exact absurd h (by simp)
      · injection h with h
        injection h with hdb hcr
        subst hdb
        rfl
  · intro cur mc db2 m h
    simp only [create_message] at h
    split at h
    · exact absurd h (by simp)
    · split at h
      · exact absurd h (by simp)
      · injection h with h
        injection h with hdb hm
        subst hdb
        rfl
  · intro mid nc cur db2 m h
    simp only [update_message] at h
    split at h
    · exact absurd h (by simp)
    · split at h
      · exact absurd h (by simp)
      · injection h with h
        injection h with hdb hm
        subst hdb
        rfl
  · intro mid cur db2 h
    simp only [delete_message] at h
    split at h
    · exact absurd h (by simp)
    · split at h
      · exact absurd h (by simp)
      · injection h with h
        subst h
        rfl
  · intro mid cur db2 m h
    simp only [mark_message_as_read] at h
    split at h
    · exact absurd h (by simp)
    · split at h
      · exact absurd h (by simp)
      · injection h with h
        injection h with hdb hm
        subst hdb
        rfl

/-- Witness for `creator_admin_at_creation_preserved`: user 1 creating the
group chat over the three-user store ends up member and admin. -/
theorem creator_admin_at_creation_preserved_witness :
    isMember groupChatDB 1 1 = true ∧ isAdmin groupChatDB 1 1 = true :=
  (creator_admin_at_creation_preserved dbABC).1 1 ⟨some "grp", true, [1, 2, 3]⟩
    groupChatDB 1 (by decide)

/-! ## C6 — allow-list upsert: idempotence and uniqueness -/

/-- A successful `find?` splits the list into a match-free head, the found
element, and a tail, and `updateFirstP` rewrites exactly that element. -/
theorem find?_split {α : Type} (l : List α) (p : α → Bool) (r : α)
    (h : l.find? p = some r) :
    ∃ l1 l2, l = l1 ++ r :: l2 ∧ (∀ x ∈ l1, p x = false) ∧
      ∀ f : α → α, updateFirstP l p f = l1 ++ f r :: l2 := by
  induction l with
  | nil => exact absurd h (by simp)
  | cons a as ih =>
    by_cases hpa : p a
    · rw [List.find?_cons_of_pos _ hpa] at h
      injection h with h
      subst h
      refine ⟨[], as, rfl, by simp, ?_⟩
      intro f
      simp [updateFirstP, hpa]
    · rw [List.find?_cons_of_neg _ hpa] at h
      rcases ih h with ⟨l1, l2, hsp, hn, hupd⟩
      refine ⟨a :: l1, l2, by rw [List.cons_append, hsp], ?_, ?_⟩
      · intro x hx
        rcases List.mem_cons.mp hx with rfl | hx2
        · simpa using hpa
        · exact hn x hx2
      · intro f
        simp only [updateFirstP, if_neg hpa, hupd f, List.cons_append]

/-- Searching past a match-free head finds the first match behind it. -/
theorem find?_prefix_none_cons {α : Type} (l1 l2 : List α) (p : α → Bool) (x : α)
    (h1 : ∀ y ∈ l1, p y = false) (hx : p x = true) :
    (l1 ++ x :: l2).find? p = some x := by
  induction l1 with
  | nil => exact List.find?_cons_of_pos l2 hx
  | cons a l1x ih =>
    have hpa : p a = false := h1 a (List.mem_cons_self _ _)
    rw [List.cons_append, List.find?_cons_of_neg _ (by simp [hpa])]
    exact ih (fun y hy => h1 y (List.mem_cons_of_mem a hy))

/-- A filter whose predicate fails on every element yields the empty list. -/
theorem filter_eq_nil_of_all_false {α : Type} (l : List α) (p : α → Bool)
    (h : ∀ x ∈ l, p x = false) : l.filter p = [] :=
  List.filter_eq_nil_iff.mpr (fun a ha => by simp [h a ha])

/-- C6 (amended): `register_authorized_ip` is an idempotent upsert.  First
conjunct: running it twice is the same as running it once.  Second: when
the pair has at most one row, exactly one active row for the pair exists
afterwards (so a second call never yields two active rows).  Third: an
existing active entry makes the call a no-op.  Fourth: an existing inactive
entry is reactivated, with its description set to
`pyOrDescription d old` — overwritten only by a truthy (non-`None`,
non-empty) new description, retained otherwise. -/
theorem register_noop (db : DB) (u : Nat) (ip : String) (d : Option String)
    (r : AuthorizedIPRow) (h : findIpEntry db u ip = some r) (ha : r.is_active = true) :
    register_authorized_ip db u ip d = db := by
  simp [register_authorized_ip, h, ha]

theorem register_authorized_ip_idempotent_upsert (db : DB) (u : Nat) (ip : String)
    (d : Option String) :
    register_authorized_ip (register_authorized_ip db u ip d) u ip d =
      register_authorized_ip db u ip d ∧
    ((pairRows db u ip).length ≤ 1 →
        (activePairRows (register_authorized_ip db u ip d) u ip).length = 1) ∧
    (∀ r, findIpEntry db u ip = some r → r.is_active = true →
        register_authorized_ip db u ip d = db) ∧
    (∀ r, findIpEntry db u ip = some r → r.is_active = false →
        ∃ r2, findIpEntry (register_authorized_ip db u ip d) u ip = some r2 ∧
          r2.is_active = true ∧ r2.description = pyOrDescription d r.description) := by
  cases hf : findIpEntry db u ip with
  | none =>
    have hf2 : db.authorizedIPs.find?
        (fun a => a.user_id == u && a.ip_address == ip) = none := hf
    have hall : ∀ y ∈ db.authorizedIPs,
        (fun a => a.user_id == u && a.ip_address == ip) y = false := by
      intro y hy
      simpa using List.find?_eq_none.mp hf2 y hy
    have hreg : register_authorized_ip db u ip d =
        { db with authorizedIPs := db.authorizedIPs ++ [⟨u, ip, d, true, none⟩] } := by
      simp [register_authorized_ip, hf]
    have hfind2 : findIpEntry (register_authorized_ip db u ip d) u ip =
        some ⟨u, ip, d, true, none⟩ := by
      rw [hreg, findIpEntry]
      exact find?_prefix_none_cons db.authorizedIPs []
        (fun a => a.user_id == u && a.ip_address == ip) ⟨u, ip, d, true, none⟩
        hall (by simp)
    refine ⟨?_, ?_, ?_, ?_⟩
    · exact register_noop _ u ip d _ hfind2 rfl
    · intro _
      rw [activePairRows, pairRows, hreg]
      simp [List.filter_append, filter_eq_nil_of_all_false db.authorizedIPs _ hall]
    · intro r hr _
      exact absurd hr (by simp)
    · intro r hr _
      exact absurd hr (by simp)
  | some r =>
    have hf2 : db.authorizedIPs.find?
        (fun a => a.user_id == u && a.ip_address == ip) = some r := hf
    have hp : (fun a => a.user_id == u && a.ip_address == ip) r = true :=
      List.find?_some (p := fun (a : AuthorizedIPRow) => a.user_id == u && a.ip_address == ip) hf2
    cases hact : r.is_active with
    | true =>
      have hreg : register_authorized_ip db u ip d = db :=
        register_noop db u ip d r hf hact
      have hmem : r ∈ pairRows db u ip :=
        List.mem_filter.mpr ⟨List.mem_of_find?_eq_some hf2, hp⟩
      refine ⟨?_, ?_, ?_, ?_⟩
      · rw [hreg]
        exact hreg
      · intro hlen
        rw [hreg, activePairRows]
        have hone : pairRows db u ip = [r] := by
          have hpos : 0 < (pairRows db u ip).length := List.length_pos_of_mem hmem
          have h1 : (pairRows db u ip).length = 1 := Nat.le_antisymm hlen hpos
          rcases List.length_eq_one.mp h1 with ⟨a, ha⟩
          rw [ha] at hmem ⊢
          rcases List.mem_singleton.mp hmem with rfl
          rfl
        rw [hone]
        simp [hact]
      · intro r2 hr2 _
        exact hreg
      · intro r2 hr2 hfa
        injection hr2 with hr2
        subst hr2
        rw [hact] at hfa
        exact absurd hfa (by simp)
    | false =>
      rcases find?_split db.authorizedIPs _ r hf2 with ⟨l1, l2, hsp, hn, hupd⟩
      have hregdb : register_authorized_ip db u ip d =
          { db with authorizedIPs := updateFirstP db.authorizedIPs (fun a => a.user_id == u && a.ip_address == ip) (fun a => { a with is_active := true, description := pyOrDescription d a.description }) } := by
        simp [register_authorized_ip, hf, hact]
      have hips : (register_authorized_ip db u ip d).authorizedIPs =
          l1 ++ ({ r with is_active := true, description := pyOrDescription d r.description }) :: l2 := by
        rw [hregdb]
        exact hupd _
      have hfind2 : findIpEntry (register_authorized_ip db u ip d) u ip =
          some { r with is_active := true, description := pyOrDescription d r.description } := by
        rw [findIpEntry, hips]
        exact find?_prefix_none_cons l1 l2 _ _ hn hp
      refine ⟨?_, ?_, ?_, ?_⟩
      · exact register_noop _ u ip d _ hfind2 rfl
      · intro hlen
        have hl2 : l2.filter (fun a => a.user_id == u && a.ip_address == ip) = [] := by
          have hpair : pairRows db u ip =
              r :: l2.filter (fun a => a.user_id == u && a.ip_address == ip) := by
            rw [pairRows, hsp]
            rw [List.filter_append, filter_eq_nil_of_all_false l1 _ hn]
            simp [hp]
          rw [hpair] at hlen
          simp only [List.length_cons] at hlen
          have hz : (l2.filter (fun a => a.user_id == u && a.ip_address == ip)).length = 0 := by
            omega
          exact List.length_eq_zero.mp hz
        rw [activePairRows, pairRows, hips]
        rw [List.filter_append, filter_eq_nil_of_all_false l1 _ hn]
        simp [hl2, hp]
      · intro r2 hr2 hta
        injection hr2 with hr2
        subst hr2
        rw [hact] at hta
        exact absurd hta (by simp)
      · intro r2 hr2 _
        injection hr2 with hr2
        subst hr2
        exact ⟨_, hfind2, rfl, rfl⟩

/-- Witness for `register_authorized_ip_idempotent_upsert` over the store
with one inactive entry for (1, 8.8.8.8), called with description
`some "new"`. -/
theorem register_authorized_ip_idempotent_upsert_witness :
    register_authorized_ip (register_authorized_ip dbInactiveIp 1 "8.8.8.8" (some "new"))
        1 "8.8.8.8" (some "new") =
      register_authorized_ip dbInactiveIp 1 "8.8.8.8" (some "new") ∧
    (activePairRows (register_authorized_ip dbInactiveIp 1 "8.8.8.8" (some "new"))
        1 "8.8.8.8").length = 1 ∧
    (∃ r2, findIpEntry (register_authorized_ip dbInactiveIp 1 "8.8.8.8" (some "new"))
        1 "8.8.8.8" = some r2 ∧ r2.is_active = true ∧
        r2.description = pyOrDescription (some "new") (some "old")) :=
  ⟨(register_authorized_ip_idempotent_upsert dbInactiveIp 1 "8.8.8.8" (some "new")).1,
   (register_authorized_ip_idempotent_upsert dbInactiveIp 1 "8.8.8.8" (some "new")).2.1
     (by decide),
   (register_authorized_ip_idempotent_upsert dbInactiveIp 1 "8.8.8.8" (some "new")).2.2.2
     ⟨1, "8.8.8.8", some "old", false, none⟩ (by decide) rfl⟩

end Roastme
